import Mathlib

/-!
Verification of the pokemon-coloring-page repository.

This file shallowly embeds the catalog, artwork-resolver, line-art
transform, sheet compositor and selection-list code of
`src/pokemon_coloring_page/utils.py` and `src/pokemon_coloring_page/app.py`
and proves the spec's claims about them.

Modelling conventions:
* Python `int` is `ℤ`, Python `float` arithmetic is modelled exactly over `ℚ`.
* `int(x)` (truncation toward zero) is `pyInt`; `//` (floor division) is `Int.fdiv`.
* `str.lower()` is `pyLower` (ASCII case mapping, as in the data handled here).
* A Python `dict` built by successive insertion is an association list in
  insertion order; lookup (`d.get`/`d[k]`) takes the value of the LAST pair
  with the key, mirroring dict-overwrite semantics (`pyDictGet`).
* Network results (fetched bytes, decoded images, crop bounding boxes,
  `random.choice` draws) are oracle parameters; everything downstream of
  them is translated from the source.
* A PIL image is tracked by its geometry and mode (`PImage`); pixel-level
  filters keep geometry and mode exactly as PIL does.
-/

/-- Python `int(q)`: truncation toward zero. -/
def pyInt (q : ℚ) : ℤ :=
  if 0 ≤ q then ⌊q⌋ else -⌊-q⌋

/-- Python `str.lower()` restricted to ASCII case mapping. -/
def pyLower (s : String) : String :=
  ⟨s.data.map Char.toLower⟩

/-- Python dict lookup on an insertion-ordered association list:
the value of the last pair with the given key (later insertions overwrite
earlier ones), `none` when the key is absent. -/
def pyDictGet {α β : Type} [DecidableEq α] : List (α × β) → α → Option β
  | [], _ => none
  | (a, b) :: t, k =>
    match pyDictGet t k with
    | some v => some v
    | none => if a = k then some b else none

/-! ### Entity catalog (`utils.py` lines 44-116)

`get_types` fetches the remote type index; it is a network oracle, so the
catalog builders below take its result — an insertion-ordered list of
`(type name, [(pokemon name, pokemon id), ...])` as stored by `get_types`
(all names lowercased by it) — as a parameter. -/

/-- An entry of the catalog built by `get_pokedex_types`:
id, name and the list of type tags, in insertion order. -/
structure DexEntry where
  id : ℕ
  name : String
  types : List String
deriving DecidableEq, Repr

/-- One step of the `get_pokedex_types` loop body: if the id is new, append a
fresh entry with a singleton type list, otherwise append the type to the
existing entry's list. -/
def addTypeEntry (pokedex : List DexEntry) (i : ℕ) (nm ty : String) : List DexEntry :=
  if pokedex.any (fun e => e.id = i) then
    pokedex.map (fun e => if e.id = i then ⟨e.id, e.name, e.types ++ [ty]⟩ else e)
  else
    pokedex ++ [⟨i, nm, [ty]⟩]

/-- `get_pokedex_types` from `utils.py`: folds over the type index, grouping
the per-type member lists into one id-keyed catalog. -/
def get_pokedex_types (typesIndex : List (String × List (String × ℕ))) : List DexEntry :=
  typesIndex.foldl
    (fun pd tpl => tpl.2.foldl (fun pd p => addTypeEntry pd p.2 p.1 tpl.1) pd)
    []

/-- `get_pokedex` from `utils.py`: with a truthy filter that is a known type
name (after lowercasing) return the id→name mapping restricted to that type;
with any other argument — including an unknown filter — return the full
id→name mapping. The source has no raising path. -/
def get_pokedex (typesIndex : List (String × List (String × ℕ)))
    (type_filter : Option String) : List (ℕ × String) :=
  match type_filter with
  | some s =>
    if s ≠ "" then
      let s := pyLower s
      if s ∈ typesIndex.map Prod.fst then
        (get_pokedex_types typesIndex).filterMap
          (fun e => if s ∈ e.types then some (e.id, e.name) else none)
      else (get_pokedex_types typesIndex).map (fun e => (e.id, e.name))
    else (get_pokedex_types typesIndex).map (fun e => (e.id, e.name))
  | none => (get_pokedex_types typesIndex).map (fun e => (e.id, e.name))

/-- `pokemon_id2name` from `utils.py`: `get_pokedex().get(pokemon_id, None)`,
over the full (unfiltered) pokedex. -/
def pokemon_id2name (typesIndex : List (String × List (String × ℕ)))
    (pokemon_id : ℕ) : Option String :=
  pyDictGet (get_pokedex typesIndex none) pokemon_id

/-- `_pokedex_names` from `utils.py`: the name→id reversal of the full
pokedex dict. -/
def _pokedex_names (typesIndex : List (String × List (String × ℕ))) :
    List (String × ℕ) :=
  (get_pokedex typesIndex none).map (fun e => (e.2, e.1))

/-- `pokemon_name2id` from `utils.py`: lowercase the query and look it up in
the reversed dict. -/
def pokemon_name2id (typesIndex : List (String × List (String × ℕ)))
    (pokemon_name : String) : Option ℕ :=
  pyDictGet (_pokedex_names typesIndex) (pyLower pokemon_name)

/-- `pokemon_id2types` from `utils.py`:
`get_pokedex_types().get(pokemon_id, {}).get("types", [])`. -/
def pokemon_id2types (typesIndex : List (String × List (String × ℕ)))
    (pokemon_id : ℕ) : List String :=
  match pyDictGet ((get_pokedex_types typesIndex).map (fun e => (e.id, e))) pokemon_id with
  | some e => e.types
  | none => []

/-! ### Images and the artwork resolver (`utils.py` lines 119-221)

A PIL image is modelled by its pixel geometry and mode. The claims about
this repository concern channel counts, branch structure and geometry, so
pixel contents are not tracked; every operation below records the exact
geometry/mode effect of the PIL call it names. -/

/-- PIL image modes appearing in this program's data: `RGB` (3 channels),
`RGBA` (4), `L` (grayscale, 1), `P` (palette, 1). -/
inductive PMode where
  | RGB
  | RGBA
  | L
  | P
deriving DecidableEq, Repr

/-- Number of raster channels of a mode. -/
def PMode.channels : PMode → ℕ
  | .RGB => 3
  | .RGBA => 4
  | .L => 1
  | .P => 1

/-- A raster image: width, height (Python ints) and mode. -/
structure PImage where
  width : ℤ
  height : ℤ
  mode : PMode
deriving DecidableEq, Repr

/-- A crop bounding box (left, upper, right, lower), as from `getbbox`. -/
structure BBox where
  left : ℤ
  upper : ℤ
  right : ℤ
  lower : ℤ
deriving DecidableEq, Repr

/-- `Image.new(mode, (w, h), color)`. -/
def PImage.new (m : PMode) (w h : ℤ) : PImage :=
  ⟨w, h, m⟩

/-- `Image.alpha_composite(Image.new("RGBA", image.size, "WHITE"), image)`:
composites onto a white background of the same size; the result is RGBA. -/
def alpha_composite_white (im : PImage) : PImage :=
  ⟨im.width, im.height, PMode.RGBA⟩

/-- `image.crop(bbox)`: the cropped geometry, mode kept. -/
def PImage.crop (im : PImage) (b : BBox) : PImage :=
  ⟨b.right - b.left, b.lower - b.upper, im.mode⟩

/-- `ImageOps.expand(image, border=b, fill=...)`: pad on all sides. -/
def ImageOps_expand (im : PImage) (b : ℤ) : PImage :=
  ⟨im.width + 2 * b, im.height + 2 * b, im.mode⟩

/-- `ImageOps.crop(image, border=b)`: remove the border on all sides. -/
def ImageOps_crop (im : PImage) (b : ℤ) : PImage :=
  ⟨im.width - 2 * b, im.height - 2 * b, im.mode⟩

/-- `image.convert("L")`: grayscale conversion. -/
def PImage.convertL (im : PImage) : PImage :=
  ⟨im.width, im.height, PMode.L⟩

/-- `image.resize((w, h), resample=...)`: new geometry, mode kept. -/
def PImage.resize (im : PImage) (w h : ℤ) : PImage :=
  ⟨w, h, im.mode⟩

/-- `image.filter(...)` (SMOOTH / CONTOUR): pixel transform, geometry and
mode unchanged. -/
def PImage.filterKernel (im : PImage) : PImage :=
  im

/-- `image.point(fn)`: per-pixel transform, geometry and mode unchanged. -/
def PImage.point (im : PImage) (_threshold : ℚ) : PImage :=
  im

/-- `ImageOps.autocontrast(image, cutoff=..., ignore=255)`: histogram
stretch, geometry and mode unchanged. -/
def ImageOps_autocontrast (im : PImage) (_cutoff : ℚ) : PImage :=
  im

/-- `image.paste(im, pos)`: writes pixels inside the base image; base
geometry and mode unchanged. -/
def PImage.paste (base : PImage) (_im : PImage) (_pos : ℤ × ℤ) : PImage :=
  base

/-- `ImageDraw.Draw(...).text(...)`: stamps text pixels; geometry and mode
unchanged. -/
def PImage.drawText (im : PImage) (_pos : ℤ × ℤ) : PImage :=
  im

/-- `ImageDraw.Draw(...).line(...)`: draws a line; geometry and mode
unchanged. -/
def PImage.drawLine (im : PImage) (_seg : ℤ × ℤ × ℤ × ℤ) : PImage :=
  im

/-- `get_image_by_id` from `utils.py` (lines 119-155): three candidate
source locations are tried in order (official artwork, home artwork, sprite);
each attempt's outcome — `some` decoded image, or `none` when the request or
`Image.open` raised — is an oracle argument. The first success is returned;
when every attempt fails, control falls off the end of the function, which
in Python is a NORMAL return of `None`: there is no raise statement or
error type on this path. -/
def get_image_by_id (attempt1 attempt2 attempt3 : Option PImage) : Option PImage :=
  match attempt1 with
  | some im => some im
  | none =>
    match attempt2 with
    | some im => some im
    | none =>
      match attempt3 with
      | some im => some im
      | none => none

/-! ### Line-art transform (`utils.py` lines 201-280) -/

/-- `img_resize` from `utils.py`: aspect-preserving fit into
`(max_width, max_height)`, first matching the width, then the height if the
scaled height overshoots. -/
def img_resize (image : PImage) (max_width max_height : ℤ) : PImage :=
  let w := max_width
  let h := pyInt ((image.height : ℚ) * ((w : ℚ) / (image.width : ℚ)))
  if h > max_height then
    let h := max_height
    let w := pyInt ((image.width : ℚ) * ((h : ℚ) / (image.height : ℚ)))
    image.resize w h
  else
    image.resize w h

/-- Steps 1-3 of `create_coloring_image`: flatten RGBA onto white, optionally
crop to the content bounding box (an oracle, computed by PIL from pixel
data) with a 1px white border, then aspect-fit resize. This is the whole
pipeline except the line-art branch. -/
def resizedStage (image0 : PImage) (bbox : Option BBox) (max_width max_height : ℤ)
    (crop : Bool) : PImage :=
  let image :=
    match image0.mode with
    | PMode.RGBA => alpha_composite_white image0
    | _ => image0
  let image :=
    if crop then
      match bbox with
      | some b => ImageOps_expand (image.crop b) 1
      | none => image
    else image
  img_resize image max_width max_height

/-- `create_coloring_image` from `utils.py` (lines 224-280), with the
source image (the `get_image_by_id` result) and the content bounding box
(`getbbox` on the inverted grayscale copy) supplied as oracles: steps 1-3
as in `resizedStage`, then, only when `color` is false, the line-art branch:
grayscale, 10px pad, smooth, contour, two-sided noise thresholding,
autocontrast, unpad. -/
def create_coloring_image (image0 : PImage) (bbox : Option BBox)
    (max_width max_height : ℤ) (noise_threshold histogram_cutoff : ℚ)
    (crop : Bool) (color : Bool) : PImage :=
  let image :=
    match image0.mode with
    | PMode.RGBA => alpha_composite_white image0
    | _ => image0
  let image :=
    if crop then
      match bbox with
      | some b => ImageOps_expand (image.crop b) 1
      | none => image
    else image
  let image := img_resize image max_width max_height
  if !color then
    let image := image.convertL
    let image := ImageOps_expand image 10
    let image := image.filterKernel
    let image := image.filterKernel
    let image := image.point (1 - noise_threshold)
    let image := image.point noise_threshold
    let image := ImageOps_autocontrast image (histogram_cutoff * 100)
    ImageOps_crop image 10
  else
    image

/-! ### Sheet compositor (`utils.py` lines 294-417)

Oracles: `src id` is the `get_image_by_id` result for `id` (`none` means the
fetch chain produced `None`, so `create_coloring_image` raises
`AttributeError` on `image.mode`); `bboxOf id` is the content bounding box
PIL computes for that id's artwork; `choices t` drives the `t`-th
`random.choice` draw, as an index into the key list. The `while True` cell
loop is embedded with explicit fuel: `none` means the loop has not finished
within `fuel` iterations. -/

/-- One cell's `while True` retry loop (`utils.py` lines 352-382). Each
iteration takes the head of the include list if nonempty, else a random
catalog key; a resolve/transform failure removes the id from the include
list and retries; a success removes the id from the include list, and
either appends it to the exclude list and exits the loop, or — when the id
is already excluded — retries. Returns the rendered id, its cell image, the
updated include and exclude lists and the next draw counter. -/
def fillCell (src : ℕ → Option PImage) (bboxOf : ℕ → Option BBox) (choices : ℕ → ℕ)
    (keys : List ℕ) (maxW maxH : ℤ) (color crop : Bool) :
    ℕ → ℕ → List ℕ → List ℕ → Option (ℕ × PImage × List ℕ × List ℕ × ℕ)
  | 0, _, _, _ => none
  | fuel + 1, t, inc, exc =>
    let pokemon_id :=
      match inc with
      | i :: _ => i
      | [] => keys.getD (choices t % keys.length) 0
    match src pokemon_id with
    | none =>
      fillCell src bboxOf choices keys maxW maxH color crop
        fuel (t + 1) (inc.erase pokemon_id) exc
    | some im =>
      let coloring_image :=
        create_coloring_image im (bboxOf pokemon_id) maxW maxH (5 / 100) (1 / 10) crop color
      let inc := inc.erase pokemon_id
      if pokemon_id ∈ exc then
        fillCell src bboxOf choices keys maxW maxH color crop fuel (t + 1) inc exc
      else
        some (pokemon_id, coloring_image, inc, exc ++ [pokemon_id], t + 1)

/-- The row-major double loop over cells (`utils.py` lines 350-399),
flattened over the absolute cell index `idx` (`idx / columns` is the row,
`idx % columns` the column). Each successful cell is pasted centered into
its box and its label text stamped; the rendered ids are accumulated in
order. -/
def genCells (src : ℕ → Option PImage) (bboxOf : ℕ → Option BBox) (choices : ℕ → ℕ)
    (keys : List ℕ) (boxW boxH outerM innerM maxW maxH : ℤ) (columns : ℕ)
    (color crop : Bool) (fuel : ℕ) :
    ℕ → ℕ → List ℕ → List ℕ → PImage → List ℕ →
      Option (PImage × List ℕ × List ℕ × List ℕ)
  | _, 0, inc, exc, image, rendered => some (image, rendered, inc, exc)
  | t, n + 1, inc, exc, image, rendered =>
    let idx := rendered.length
    match fillCell src bboxOf choices keys maxW maxH color crop fuel t inc exc with
    | none => none
    | some (pokemon_id, coloring_image, inc, exc, t) =>
      let x := (idx % columns : ℕ) * boxW + outerM
      let y := (idx / columns : ℕ) * boxH + outerM
      let dx := Int.fdiv (boxW - coloring_image.width) 2
      let dy := Int.fdiv (boxH - coloring_image.height) 2
      let image := image.paste coloring_image (x + dx, y + dy)
      let image := image.drawText (x + innerM, y + innerM)
      genCells src bboxOf choices keys boxW boxH outerM innerM maxW maxH columns
        color crop fuel t n inc exc image (rendered ++ [pokemon_id])

/-- `generate_pokemon_coloring_page` from `utils.py` (lines 294-417):
converts the physical page parameters to pixels with `int(mm * dpi / 25.4)`,
copies the include and exclude lists, creates the white RGB page raster,
computes the cell geometry, fills every cell through the retry loop, then
draws the interior separator lines. The value of the `return` statement on
line 417 is the output image alone. `none` means some cell loop did not
finish within `fuel` iterations. -/
def generate_pokemon_coloring_page (src : ℕ → Option PImage) (bboxOf : ℕ → Option BBox)
    (choices : ℕ → ℕ) (keys : List ℕ) (fuel : ℕ)
    (page_height_mm page_width_mm outer_margin_mm inner_margin_mm font_size_mm : ℚ)
    (dpi : ℤ) (rows columns : ℕ) (include_list exclude_list : List ℕ)
    (color crop : Bool) : Option PImage :=
  let PAGE_WIDTH := pyInt (page_width_mm * dpi / 25.4)
  let PAGE_HEIGHT := pyInt (page_height_mm * dpi / 25.4)
  let OUTER_MARGIN := pyInt (outer_margin_mm * dpi / 25.4)
  let INNER_MARGIN := pyInt (inner_margin_mm * dpi / 25.4)
  let _FONT_SIZE := pyInt (font_size_mm * dpi / 25.4)
  let include_list := include_list
  let exclude_list := exclude_list
  let output_image := PImage.new PMode.RGB PAGE_WIDTH PAGE_HEIGHT
  let IMAGE_BOX_WIDTH := Int.fdiv (PAGE_WIDTH - 2 * OUTER_MARGIN) columns
  let IMAGE_BOX_HEIGHT := Int.fdiv (PAGE_HEIGHT - 2 * OUTER_MARGIN) rows
  let MAX_IMAGE_WIDTH := IMAGE_BOX_WIDTH - 2 * INNER_MARGIN
  let MAX_IMAGE_HEIGHT := IMAGE_BOX_HEIGHT - 2 * INNER_MARGIN
  match genCells src bboxOf choices keys IMAGE_BOX_WIDTH IMAGE_BOX_HEIGHT OUTER_MARGIN
      INNER_MARGIN MAX_IMAGE_WIDTH MAX_IMAGE_HEIGHT columns color crop fuel
      0 (rows * columns) include_list exclude_list output_image [] with
  | none => none
  | some (image, _rendered, _inc, _exc) =>
    let image := (List.range (rows - 1)).foldl
      (fun im i =>
        let y := IMAGE_BOX_HEIGHT * ((i : ℤ) + 1) + OUTER_MARGIN
        im.drawLine (OUTER_MARGIN, y, PAGE_WIDTH - OUTER_MARGIN, y))
      image
    let image := (List.range (columns - 1)).foldl
      (fun im i =>
        let x := IMAGE_BOX_WIDTH * ((i : ℤ) + 1) + OUTER_MARGIN
        im.drawLine (x, OUTER_MARGIN, x, PAGE_HEIGHT - OUTER_MARGIN))
      image
    some image

/-- Termination of one cell's retry loop at a given starting state: some
fuel bound suffices for the `while True` loop to exit. -/
def cellLoopTerminates (src : ℕ → Option PImage) (bboxOf : ℕ → Option BBox)
    (choices : ℕ → ℕ) (keys : List ℕ) (maxW maxH : ℤ) (color crop : Bool)
    (t : ℕ) (inc exc : List ℕ) : Prop :=
  ∃ fuel, (fillCell src bboxOf choices keys maxW maxH color crop fuel t inc exc).isSome

/-! ### Selection list (`app.py` lines 93-104 and 616-637)

The CLI keeps `selected_pokemon` (ids, user picks first) and
`user_selected_pokemon` (length of the user-picked prefix). `random.choice`
draws are again an oracle index sequence, and the auto-fill `while` loop is
fuel-bounded. -/

/-- The CLI selection state: the ordered id list and the user-picked count. -/
structure SelState where
  selected : List ℕ
  userSel : ℕ
deriving DecidableEq, Repr

/-- The `while len(selected) < n` auto-fill loop of `_random_select_pokemon`
(app.py lines 95-98): draw a random catalog key, append it only if absent. -/
def autofillLoop (keys : List ℕ) (choices : ℕ → ℕ) (n : ℕ) :
    ℕ → ℕ → List ℕ → Option (List ℕ)
  | 0, _, sel => if sel.length < n then none else some sel
  | fuel + 1, t, sel =>
    if sel.length < n then
      let new_pokemon := keys.getD (choices t % keys.length) 0
      if new_pokemon ∈ sel then autofillLoop keys choices n fuel (t + 1) sel
      else autofillLoop keys choices n fuel (t + 1) (sel ++ [new_pokemon])
    else some sel

/-- `_random_select_pokemon` (app.py lines 93-104): auto-fill to `n = rows ×
columns`, truncate the list to `n`, clamp the user-picked count to `n`. -/
def _random_select_pokemon (keys : List ℕ) (choices : ℕ → ℕ) (n fuel t : ℕ)
    (s : SelState) : Option SelState :=
  (autofillLoop keys choices n fuel t s.selected).map
    (fun sel => ⟨sel.take n, min s.userSel n⟩)

/-- One user pick from the run loop (app.py lines 616-637): the id must be a
catalog key, truthy, and not already selected; then it is inserted at the
front and the user-picked count incremented. -/
def selectInput (keys : List ℕ) (pokemon_id : ℕ) (s : SelState) : SelState :=
  if pokemon_id ∉ keys then s
  else if pokemon_id = 0 then s
  else if pokemon_id ∈ s.selected then s
  else ⟨pokemon_id :: s.selected, s.userSel + 1⟩

/-- One interactive step: a user pick or an auto-fill pass. -/
inductive SelOp where
  | pick (pokemon_id : ℕ)
  | autofill (fuel t : ℕ) (choices : ℕ → ℕ)

/-- Apply a sequence of interactive steps to the selection state. -/
def applySelOps (keys : List ℕ) (n : ℕ) : List SelOp → SelState → Option SelState
  | [], s => some s
  | SelOp.pick pokemon_id :: ops, s =>
    applySelOps keys n ops (selectInput keys pokemon_id s)
  | SelOp.autofill fuel t choices :: ops, s =>
    match _random_select_pokemon keys choices n fuel t s with
    | none => none
    | some s => applySelOps keys n ops s

/-- The effect of one `generate_pokemon_coloring_page` call on the store of
list objects, given the references `rInc`, `rExc` the caller passed: read
the callers' lists, allocate the two copies (lines 336-337) in fresh cells,
run the cell loop on the copies, and leave the loop's final include/exclude
contents in the fresh cells. The cells the caller passed are never
written. -/
def generateStoreEffect (src : ℕ → Option PImage) (bboxOf : ℕ → Option BBox)
    (choices : ℕ → ℕ) (keys : List ℕ) (fuel : ℕ)
    (page_height_mm page_width_mm outer_margin_mm inner_margin_mm font_size_mm : ℚ)
    (dpi : ℤ) (rows columns : ℕ) (color crop : Bool)
    (store : List (List ℕ)) (rInc rExc : ℕ) : List (List ℕ) :=
  let include_list := store.getD rInc []
  let exclude_list := store.getD rExc []
  let rIncCopy := store.length
  let rExcCopy := store.length + 1
  let store := store ++ [include_list, exclude_list]
  let PAGE_WIDTH := pyInt (page_width_mm * dpi / 25.4)
  let PAGE_HEIGHT := pyInt (page_height_mm * dpi / 25.4)
  let OUTER_MARGIN := pyInt (outer_margin_mm * dpi / 25.4)
  let INNER_MARGIN := pyInt (inner_margin_mm * dpi / 25.4)
  let IMAGE_BOX_WIDTH := Int.fdiv (PAGE_WIDTH - 2 * OUTER_MARGIN) columns
  let IMAGE_BOX_HEIGHT := Int.fdiv (PAGE_HEIGHT - 2 * OUTER_MARGIN) rows
  let MAX_IMAGE_WIDTH := IMAGE_BOX_WIDTH - 2 * INNER_MARGIN
  let MAX_IMAGE_HEIGHT := IMAGE_BOX_HEIGHT - 2 * INNER_MARGIN
  match genCells src bboxOf choices keys IMAGE_BOX_WIDTH IMAGE_BOX_HEIGHT OUTER_MARGIN
      INNER_MARGIN MAX_IMAGE_WIDTH MAX_IMAGE_HEIGHT columns color crop fuel
      0 (rows * columns) include_list exclude_list
      (PImage.new PMode.RGB PAGE_WIDTH PAGE_HEIGHT) [] with
  | none => store
  | some (_image, _rendered, incFinal, excFinal) =>
    (store.set rIncCopy incFinal).set rExcCopy excFinal

/-! ### Theorems -/

theorem pyDictGet_mem {α β : Type} [DecidableEq α] (k : α) (v : β) :
    ∀ l : List (α × β), pyDictGet l k = some v → (k, v) ∈ l
  | [] => by simp [pyDictGet]
  | (a, b) :: t => by
    intro h
    simp only [pyDictGet] at h
    cases hr : pyDictGet t k with
    | some w =>
      rw [hr] at h
      injection h with hw
      rw [hw] at hr
      exact List.mem_cons_of_mem _ (pyDictGet_mem k v t hr)
    | none =>
      rw [hr] at h
      by_cases hak : a = k
      · rw [if_pos hak] at h
        injection h with hb
        subst hak; subst hb
        exact List.mem_cons_self _ _
      · rw [if_neg hak] at h
        exact absurd h (by simp)

theorem pyDictGet_eq_none_of_not_mem {α β : Type} [DecidableEq α] (k : α) :
    ∀ l : List (α × β), k ∉ l.map Prod.fst → pyDictGet l k = none
  | [] => fun _ => rfl
  | (a, b) :: t => by
    intro hk
    simp only [List.map_cons, List.mem_cons] at hk
    push_neg at hk
    have ht := pyDictGet_eq_none_of_not_mem k t hk.2
    simp only [pyDictGet, ht]
    rw [if_neg (fun h => hk.1 h.symm)]

theorem pyDictGet_of_mem {α β : Type} [DecidableEq α] (k : α) (v : β) :
    ∀ l : List (α × β), (l.map Prod.fst).Nodup → (k, v) ∈ l → pyDictGet l k = some v
  | [] => by simp
  | (a, b) :: t => by
    intro hnd hm
    simp only [List.map_cons, List.nodup_cons] at hnd
    rcases List.mem_cons.mp hm with h | h
    · injection h with h1 h2
      subst h1; subst h2
      have ht := pyDictGet_eq_none_of_not_mem k t hnd.1
      simp [pyDictGet, ht]
    · have := pyDictGet_of_mem k v t hnd.2 h
      simp [pyDictGet, this]

/-! ### Helper lemmas about the compositor -/

theorem foldl_self {α β : Type} : ∀ (l : List β) (a : α), l.foldl (fun a _ => a) a = a
  | [], _ => rfl
  | _ :: t, a => foldl_self t a

theorem genCells_image_eq (src : ℕ → Option PImage) (bboxOf : ℕ → Option BBox)
    (choices : ℕ → ℕ) (keys : List ℕ) (boxW boxH outerM innerM maxW maxH : ℤ)
    (columns : ℕ) (color crop : Bool) (fuel : ℕ) :
    ∀ (n t : ℕ) (inc exc : List ℕ) (image : PImage) (rendered : List ℕ)
      (out : PImage × List ℕ × List ℕ × List ℕ),
      genCells src bboxOf choices keys boxW boxH outerM innerM maxW maxH columns
        color crop fuel t n inc exc image rendered = some out → out.1 = image
  | 0, t, inc, exc, image, rendered, out => by
    intro h
    simp only [genCells] at h
    cases h
    rfl
  | n + 1, t, inc, exc, image, rendered, out => by
    intro h
    simp only [genCells] at h
    cases hf : fillCell src bboxOf choices keys maxW maxH color crop fuel t inc exc with
    | none => rw [hf] at h; cases h
    | some r =>
      rw [hf] at h
      obtain ⟨pokemon_id, cimg, inc', exc', t'⟩ := r
      have := genCells_image_eq src bboxOf choices keys boxW boxH outerM innerM maxW maxH
        columns color crop fuel n t' inc' exc'
        ((image.paste cimg (0, 0)).drawText (0, 0)) (rendered ++ [pokemon_id]) out h
      simpa [PImage.paste, PImage.drawText] using this

theorem generate_dims_aux (src : ℕ → Option PImage) (bboxOf : ℕ → Option BBox)
    (choices : ℕ → ℕ) (keys : List ℕ) (fuel : ℕ)
    (page_height_mm page_width_mm outer_margin_mm inner_margin_mm font_size_mm : ℚ)
    (dpi : ℤ) (rows columns : ℕ) (include_list exclude_list : List ℕ)
    (color crop : Bool) (img : PImage)
    (h : generate_pokemon_coloring_page src bboxOf choices keys fuel page_height_mm
        page_width_mm outer_margin_mm inner_margin_mm font_size_mm dpi rows columns
        include_list exclude_list color crop = some img) :
    img = PImage.new PMode.RGB (pyInt (page_width_mm * dpi / 25.4))
      (pyInt (page_height_mm * dpi / 25.4)) := by
  simp only [generate_pokemon_coloring_page] at h
  split at h
  · cases h
  · rename_i image rendered inc exc heq
    simp only [PImage.drawLine, foldl_self] at h
    cases h
    exact genCells_image_eq src bboxOf choices keys _ _ _ _ _ _ columns color crop fuel
      _ _ _ _ _ _ _ heq

/-- C1 counterexample: at `pageWidthMm = 297`, `pageHeightMm = 210`,
`dpi = 200` (rows 2, columns 3, all six cells rendering from an explicit
list) the sheet compositor produces a 2338×1654-claimed… in fact
2338×1653 raster: `int()` TRUNCATES `mm×dpi/25.4`, so the claimed
round-to-nearest dimensions 2339×1654 are wrong. -/
theorem C1_counterexample :
    (generate_pokemon_coloring_page (fun _ => some ⟨100, 100, PMode.RGBA⟩)
        (fun _ => none) (fun _ => 0) [1] 5 210 297 10 2 (5/2) 200 2 3
        [1, 2, 3, 4, 5, 6] [] false true).map (fun im => (im.width, im.height)) =
      some (2338, 1653) ∧ ((2338 : ℤ), (1653 : ℤ)) ≠ ((2339 : ℤ), (1654 : ℤ)) := by
  constructor
  · simp [generate_pokemon_coloring_page, genCells, fillCell, PImage.paste,
      PImage.drawText, PImage.drawLine, PImage.new]
    norm_num [pyInt]
  · decide

/-- C1 (amended): for every valid page spec (positive width, height, dpi),
whenever `generate_pokemon_coloring_page` returns a raster, its pixel
dimensions are exactly `int(pageWidthMm×dpi/25.4) × int(pageHeightMm×dpi/25.4)`
— Python `int()` truncation, not rounding to nearest; in particular
297×210 mm at 200 dpi gives 2338×1653, not 2339×1654. -/
theorem C1_page_dimensions (src : ℕ → Option PImage) (bboxOf : ℕ → Option BBox)
    (choices : ℕ → ℕ) (keys : List ℕ) (fuel : ℕ)
    (page_height_mm page_width_mm outer_margin_mm inner_margin_mm font_size_mm : ℚ)
    (dpi : ℤ) (rows columns : ℕ) (include_list exclude_list : List ℕ)
    (color crop : Bool) (img : PImage)
    (hw : 0 < page_width_mm) (hh : 0 < page_height_mm) (hdpi : 0 < dpi)
    (h : generate_pokemon_coloring_page src bboxOf choices keys fuel page_height_mm
        page_width_mm outer_margin_mm inner_margin_mm font_size_mm dpi rows columns
        include_list exclude_list color crop = some img) :
    img.width = pyInt (page_width_mm * dpi / 25.4) ∧
    img.height = pyInt (page_height_mm * dpi / 25.4) := by
  rw [generate_dims_aux src bboxOf choices keys fuel page_height_mm page_width_mm
    outer_margin_mm inner_margin_mm font_size_mm dpi rows columns include_list
    exclude_list color crop img h]
  exact ⟨rfl, rfl⟩

/-- C1 witness: the amended dimension theorem applied to the concrete
297×210 mm, 200 dpi, 2×3-grid render. -/
theorem C1_witness :
    ((0 : ℚ) < 297) ∧ ((0 : ℚ) < 210) ∧ ((0 : ℤ) < 200) ∧
    ((PImage.new PMode.RGB 2338 1653).width = pyInt (297 * 200 / 25.4) ∧
     (PImage.new PMode.RGB 2338 1653).height = pyInt (210 * 200 / 25.4)) :=
  ⟨by norm_num, by norm_num, by norm_num,
    C1_page_dimensions (fun _ => some ⟨100, 100, PMode.RGBA⟩) (fun _ => none)
      (fun _ => 0) [1] 5 210 297 10 2 (5/2) 200 2 3 [1, 2, 3, 4, 5, 6] [] false true
      (PImage.new PMode.RGB 2338 1653) (by norm_num) (by norm_num) (by norm_num)
      (by
        simp [generate_pokemon_coloring_page, genCells, fillCell, PImage.paste,
          PImage.drawText, PImage.drawLine, PImage.new]
        norm_num [pyInt])⟩

/-- C2 counterexample: when all three candidate source locations fail,
`get_image_by_id` does not raise anything — control falls off the end of
the Python function, a NORMAL return of `None`. -/
theorem C2_counterexample :
    get_image_by_id none none none = none := rfl

/-- C2 (amended): whenever every candidate artwork source location fails,
`get_image_by_id` terminates by returning `None` normally (there is no
`ArtworkUnavailableError`, nor any raise path, in the resolver); the
failure only surfaces later, when `create_coloring_image` touches the
`None` result. -/
theorem C2_total_failure (attempt1 attempt2 attempt3 : Option PImage)
    (h1 : attempt1 = none) (h2 : attempt2 = none) (h3 : attempt3 = none) :
    get_image_by_id attempt1 attempt2 attempt3 = none := by
  subst h1; subst h2; subst h3
  rfl

/-- C2 witness: the amended total-failure theorem at the all-fail input. -/
theorem C2_witness :
    (none : Option PImage) = none ∧ get_image_by_id none none none = none :=
  ⟨rfl, C2_total_failure none none none rfl rfl rfl⟩

/-- C5 counterexample: a filter matching no known type ("water" against a
type index holding only "fire") does not fail — `get_pokedex` falls through
and RETURNS the full unfiltered catalog. -/
theorem C5_counterexample :
    get_pokedex [("fire", [("charmander", 4)])] (some "water") =
      get_pokedex [("fire", [("charmander", 4)])] none ∧
    get_pokedex [("fire", [("charmander", 4)])] none = [(4, "charmander")] := by
  constructor
  · decide
  · decide

/-- C5 (amended): for every type-filter string that is nonempty and does not
match any known type name, `get_pokedex` returns the full unfiltered
catalog; it raises no `LookupError` (the source has no raising path). -/
theorem C5_unknown_filter (typesIndex : List (String × List (String × ℕ)))
    (s : String) (hne : s ≠ "") (hnot : pyLower s ∉ typesIndex.map Prod.fst) :
    get_pokedex typesIndex (some s) = get_pokedex typesIndex none := by
  simp [get_pokedex, hne, hnot]

/-- C5 witness: the amended unknown-filter theorem at the concrete
"water"-against-fire-only input. -/
theorem C5_witness :
    ("water" ≠ "" ∧ pyLower "water" ∉
      [("fire", [("charmander", 4)])].map
        (Prod.fst (α := String) (β := List (String × ℕ)))) ∧
    get_pokedex [("fire", [("charmander", 4)])] (some "water") =
      get_pokedex [("fire", [("charmander", 4)])] none :=
  ⟨⟨by decide, by decide⟩,
    C5_unknown_filter [("fire", [("charmander", 4)])] "water" (by decide) (by decide)⟩

/-- C6 counterexample: for an id absent from the catalog,
`pokemon_id2name` returns `None` — not the empty string the claim
specifies. -/
theorem C6_counterexample :
    pokemon_id2name [("fire", [("charmander", 4)])] 5 = none ∧
    (none : Option String) ≠ some "" := ⟨by decide, by decide⟩

/-- C6 (amended): for every id not present in the catalog,
`pokemon_id2name` returns `None` (an absent value, not the empty string)
and `pokemon_id2types` returns the empty list; neither lookup can raise
(both are total dict lookups with defaults). -/
theorem C6_unknown_id (typesIndex : List (String × List (String × ℕ)))
    (pokemon_id : ℕ)
    (hnot : pokemon_id ∉ (get_pokedex_types typesIndex).map (fun e => e.id)) :
    pokemon_id2name typesIndex pokemon_id = none ∧
    pokemon_id2types typesIndex pokemon_id = [] := by
  constructor
  · apply pyDictGet_eq_none_of_not_mem
    simpa [get_pokedex, List.map_map, Function.comp] using hnot
  · have h : pyDictGet ((get_pokedex_types typesIndex).map (fun e => (e.id, e)))
        pokemon_id = none := by
      apply pyDictGet_eq_none_of_not_mem
      simpa [List.map_map, Function.comp] using hnot
    simp [pokemon_id2types, h]

/-- C6 witness: the amended unknown-id theorem at a concrete absent id. -/
theorem C6_witness :
    (5 ∉ (get_pokedex_types [("fire", [("charmander", 4)])]).map (fun e => e.id)) ∧
    (pokemon_id2name [("fire", [("charmander", 4)])] 5 = none ∧
     pokemon_id2types [("fire", [("charmander", 4)])] 5 = []) :=
  ⟨by decide, C6_unknown_id [("fire", [("charmander", 4)])] 5 (by decide)⟩

/-- C7: for every id present in the catalog, when the stored display names
are lowercase (as `get_types` stores them) and case-insensitively unique,
resolving the id's name back through `pokemon_name2id` yields the same id. -/
theorem C7_name_roundtrip (typesIndex : List (String × List (String × ℕ)))
    (pokemon_id : ℕ) (name : String)
    (hlow : ∀ p ∈ get_pokedex typesIndex none, pyLower p.2 = p.2)
    (huniq : ((get_pokedex typesIndex none).map (fun p => pyLower p.2)).Nodup)
    (hname : pokemon_id2name typesIndex pokemon_id = some name) :
    pokemon_name2id typesIndex name = some pokemon_id := by
  have hmem : (pokemon_id, name) ∈ get_pokedex typesIndex none :=
    pyDictGet_mem pokemon_id name _ hname
  have hln : pyLower name = name := hlow (pokemon_id, name) hmem
  have hnodup : ((get_pokedex typesIndex none).map (fun p => p.2)).Nodup := by
    have : (((get_pokedex typesIndex none).map (fun p => p.2)).map pyLower).Nodup := by
      simpa [List.map_map, Function.comp] using huniq
    exact this.of_map pyLower
  have hkeys : ((_pokedex_names typesIndex).map Prod.fst).Nodup := by
    simpa [_pokedex_names, List.map_map, Function.comp] using hnodup
  have hmem2 : (name, pokemon_id) ∈ _pokedex_names typesIndex :=
    List.mem_map_of_mem (fun e => (e.2, e.1)) hmem
  unfold pokemon_name2id
  rw [hln]
  exact pyDictGet_of_mem name pokemon_id _ hkeys hmem2

/-- C7 witness: the round-trip theorem on a concrete two-entry catalog. -/
theorem C7_witness :
    ((∀ p ∈ get_pokedex [("electric", [("pikachu", 25)]),
        ("grass", [("bulbasaur", 1)])] none, pyLower p.2 = p.2) ∧
     ((get_pokedex [("electric", [("pikachu", 25)]), ("grass", [("bulbasaur", 1)])]
        none).map (fun p => pyLower p.2)).Nodup ∧
     pokemon_id2name [("electric", [("pikachu", 25)]), ("grass", [("bulbasaur", 1)])]
        25 = some "pikachu") ∧
    pokemon_name2id [("electric", [("pikachu", 25)]), ("grass", [("bulbasaur", 1)])]
        "pikachu" = some 25 :=
  ⟨⟨by decide, by decide, by decide⟩,
    C7_name_roundtrip [("electric", [("pikachu", 25)]), ("grass", [("bulbasaur", 1)])]
      25 "pikachu" (by decide) (by decide) (by decide)⟩

theorem img_resize_mode (im : PImage) (a b : ℤ) : (img_resize im a b).mode = im.mode := by
  unfold img_resize
  dsimp only [PImage.resize]
  split <;> rfl

theorem resizedStage_mode (image0 : PImage) (bbox : Option BBox) (mw mh : ℤ)
    (crop : Bool) : (resizedStage image0 bbox mw mh crop).mode = image0.mode := by
  obtain ⟨w, h, m⟩ := image0
  unfold resizedStage
  cases m <;> cases crop <;> cases bbox <;>
    simp [img_resize_mode, alpha_composite_white, PImage.crop, ImageOps_expand]

/-- C8 counterexample: the claim quantifies over every source image, but a
single-channel (grayscale `L`-mode) source — a mode PIL can decode from a
PNG — is returned with 1 channel by `create_coloring_image` even with
`color=true`: there are not 3 color channels in the result. -/
theorem C8_counterexample :
    (create_coloring_image ⟨100, 100, PMode.L⟩ none 50 50 (5/100) (1/10)
        false true).mode.channels = 1 ∧ (1 : ℕ) ≠ 3 := by
  constructor
  · have h := resizedStage_mode ⟨100, 100, PMode.L⟩ none 50 50 false
    calc (create_coloring_image ⟨100, 100, PMode.L⟩ none 50 50 (5/100) (1/10)
            false true).mode.channels
        = (resizedStage ⟨100, 100, PMode.L⟩ none 50 50 false).mode.channels := rfl
      _ = (PMode.L).channels := by rw [h]
      _ = 1 := rfl
  · decide

/-- C8 (amended): `create_coloring_image` with `color=true` is exactly the
flatten/crop/resize stage — the grayscale/smooth/contour/threshold branch is
never executed — and the returned raster keeps exactly the source's channel
count (mode unchanged); in particular a 3-color-channel (RGB or RGBA)
source keeps its 3 color channels and is never reduced to one channel. -/
theorem C8_color_preserves_mode (image0 : PImage) (bbox : Option BBox)
    (mw mh : ℤ) (nt hc : ℚ) (crop : Bool) :
    create_coloring_image image0 bbox mw mh nt hc crop true =
      resizedStage image0 bbox mw mh crop ∧
    (create_coloring_image image0 bbox mw mh nt hc crop true).mode.channels =
      image0.mode.channels := by
  have he : create_coloring_image image0 bbox mw mh nt hc crop true =
      resizedStage image0 bbox mw mh crop := rfl
  refine ⟨he, ?_⟩
  rw [he, resizedStage_mode]

/-- C3: with the explicit id list `[25, 1, 150]` on a 1×3 grid at the
default A4-landscape/200 dpi geometry and every id resolving, the cell
loop renders exactly 25, 1, 150 in that left-to-right order, none repeated,
and finishes with the internal exclusion list `[25, 1, 150]`; but the value
`generate_pokemon_coloring_page` returns (line 417: `return output_image`)
is the raster ALONE — the updated exclusion list is computed and then
discarded, contrary to the function's own `Tuple[Image.Image, list]`
annotation and docstring. -/
theorem C3_explicit_list :
    genCells (fun _ => some ⟨100, 100, PMode.RGBA⟩) (fun _ => none) (fun _ => 0)
        [25, 1, 150] 727 1497 78 15 697 1467 3 false true 5
        0 3 [25, 1, 150] [] (PImage.new PMode.RGB 2338 1653) [] =
      some (PImage.new PMode.RGB 2338 1653, [25, 1, 150], [], [25, 1, 150]) ∧
    generate_pokemon_coloring_page (fun _ => some ⟨100, 100, PMode.RGBA⟩)
        (fun _ => none) (fun _ => 0) [25, 1, 150] 5 210 297 10 2 (5/2) 200 1 3
        [25, 1, 150] [] false true =
      some (PImage.new PMode.RGB 2338 1653) := by
  constructor
  · simp [genCells, fillCell, PImage.paste, PImage.drawText]
  · simp [generate_pokemon_coloring_page, genCells, fillCell, PImage.paste,
      PImage.drawText, PImage.drawLine, PImage.new]
    norm_num [pyInt]

theorem fillCell_stuck (src : ℕ → Option PImage) (bboxOf : ℕ → Option BBox)
    (choices : ℕ → ℕ) (keys : List ℕ) (maxW maxH : ℤ) (color crop : Bool)
    (exc : List ℕ) (hne : keys ≠ []) (hsub : ∀ k ∈ keys, k ∈ exc) :
    ∀ (fuel t : ℕ),
      fillCell src bboxOf choices keys maxW maxH color crop fuel t [] exc = none
  | 0, _ => rfl
  | fuel + 1, t => by
    have hlen : 0 < keys.length := List.length_pos.mpr hne
    have hid : keys.getD (choices t % keys.length) 0 ∈ keys := by
      rw [List.getD_eq_getElem keys 0 (Nat.mod_lt _ hlen)]
      exact List.getElem_mem _
    simp only [fillCell]
    cases hs : src (keys.getD (choices t % keys.length) 0) with
    | none =>
      simp only [hs, List.erase_nil]
      exact fillCell_stuck src bboxOf choices keys maxW maxH color crop exc
        hne hsub fuel (t + 1)
    | some im =>
      simp only [hs, List.erase_nil, hsub _ hid, if_pos]
      exact fillCell_stuck src bboxOf choices keys maxW maxH color crop exc
        hne hsub fuel (t + 1)

/-- C4 counterexample: with a one-entry catalog whose only id is already in
the exclude list and no include list, the cell retry loop never exits — for
every fuel bound, under every choice sequence value, the loop is still
running, so the number of attempts is not bounded by the catalog size
(here 1). -/
theorem C4_counterexample :
    ¬ cellLoopTerminates (fun _ => some ⟨100, 100, PMode.RGBA⟩) (fun _ => none)
        (fun _ => 0) [1] 697 1467 false true 0 [] [1] := by
  rintro ⟨fuel, hs⟩
  rw [fillCell_stuck (fun _ => some ⟨100, 100, PMode.RGBA⟩) (fun _ => none)
    (fun _ => 0) [1] 697 1467 false true [1] (by decide) (by decide) fuel 0] at hs
  simp at hs

/-- C4 (amended): the per-cell retry loop is NOT bounded by the catalog
size: whenever the include list is empty and every catalog id already sits
in the exclude list, no amount of fuel makes the loop exit — the `while
True` loop livelocks, re-rolling random picks forever. (It exits only when
some candidate outside the exclude list can render.) -/
theorem C4_retry_unbounded (src : ℕ → Option PImage) (bboxOf : ℕ → Option BBox)
    (choices : ℕ → ℕ) (keys : List ℕ) (maxW maxH : ℤ) (color crop : Bool)
    (exc : List ℕ) (hne : keys ≠ []) (hsub : ∀ k ∈ keys, k ∈ exc)
    (fuel t : ℕ) :
    fillCell src bboxOf choices keys maxW maxH color crop fuel t [] exc = none :=
  fillCell_stuck src bboxOf choices keys maxW maxH color crop exc hne hsub fuel t

/-- C4 witness: the amended non-termination theorem at the concrete
exhausted-catalog state, with fuel 7. -/
theorem C4_witness :
    (([1] : List ℕ) ≠ [] ∧ ∀ k ∈ ([1] : List ℕ), k ∈ ([1] : List ℕ)) ∧
    fillCell (fun _ => some ⟨100, 100, PMode.RGBA⟩) (fun _ => none) (fun _ => 0)
      [1] 697 1467 false true 7 0 [] [1] = none :=
  ⟨⟨by decide, by decide⟩,
    C4_retry_unbounded (fun _ => some ⟨100, 100, PMode.RGBA⟩) (fun _ => none)
      (fun _ => 0) [1] 697 1467 false true [1] (by decide) (by decide) 7 0⟩

theorem autofillLoop_nodup (keys : List ℕ) (choices : ℕ → ℕ) (n : ℕ) :
    ∀ (fuel t : ℕ) (sel sel' : List ℕ), sel.Nodup →
      autofillLoop keys choices n fuel t sel = some sel' → sel'.Nodup
  | 0, t, sel, sel' => by
    intro hnd h
    simp only [autofillLoop] at h
    by_cases hl : sel.length < n
    · rw [if_pos hl] at h; cases h
    · rw [if_neg hl] at h; cases h; exact hnd
  | fuel + 1, t, sel, sel' => by
    intro hnd h
    simp only [autofillLoop] at h
    by_cases hl : sel.length < n
    · rw [if_pos hl] at h
      by_cases hp : keys.getD (choices t % keys.length) 0 ∈ sel
      · rw [if_pos hp] at h
        exact autofillLoop_nodup keys choices n fuel (t + 1) sel sel' hnd h
      · rw [if_neg hp] at h
        have hnd' : (sel ++ [keys.getD (choices t % keys.length) 0]).Nodup := by
          rw [List.nodup_append]
          refine ⟨hnd, List.nodup_singleton _, ?_⟩
          intro a ha hb
          rw [List.mem_singleton] at hb
          subst hb
          exact hp ha
        exact autofillLoop_nodup keys choices n fuel (t + 1) _ sel' hnd' h
    · rw [if_neg hl] at h; cases h; exact hnd

theorem random_select_nodup_len (keys : List ℕ) (choices : ℕ → ℕ)
    (n fuel t : ℕ) (s s' : SelState) (hnd : s.selected.Nodup)
    (h : _random_select_pokemon keys choices n fuel t s = some s') :
    s'.selected.Nodup ∧ s'.selected.length ≤ n := by
  unfold _random_select_pokemon at h
  cases ha : autofillLoop keys choices n fuel t s.selected with
  | none => rw [ha] at h; cases h
  | some sel =>
    rw [ha] at h
    cases h
    constructor
    · exact (autofillLoop_nodup keys choices n fuel t s.selected sel hnd ha).sublist
        (List.take_sublist n sel)
    · simp [List.length_take]

theorem selectInput_nodup (keys : List ℕ) (pokemon_id : ℕ) (s : SelState)
    (hnd : s.selected.Nodup) : (selectInput keys pokemon_id s).selected.Nodup := by
  unfold selectInput
  split
  · exact hnd
  · split
    · exact hnd
    · split
      · exact hnd
      · rename_i hmem
        exact List.nodup_cons.mpr ⟨by simpa using hmem, hnd⟩

/-- C9: starting from a duplicate-free selection list, any interleaving of
user insertions-at-front and completed auto-fill passes keeps the list
duplicate-free, and after a final auto-fill pass its length is at most
`rows × columns`. -/
theorem C9_selection_invariant (keys : List ℕ) (n : ℕ) (ops : List SelOp)
    (s s₁ : SelState) (hnd : s.selected.Nodup)
    (h : applySelOps keys n ops s = some s₁) :
    s₁.selected.Nodup ∧
    (∀ (ops₀ : List SelOp) (fuel t : ℕ) (choices : ℕ → ℕ),
      ops = ops₀ ++ [SelOp.autofill fuel t choices] → s₁.selected.length ≤ n) := by
  induction ops generalizing s with
  | nil =>
    simp only [applySelOps] at h
    cases h
    refine ⟨hnd, ?_⟩
    intro ops₀ fuel t choices heq
    exact absurd heq.symm (List.append_ne_nil_of_right_ne_nil _ (by simp))
  | cons op ops ih =>
    cases op with
    | pick pokemon_id =>
      simp only [applySelOps] at h
      obtain ⟨h1, h2⟩ := ih (selectInput keys pokemon_id s)
        (selectInput_nodup keys pokemon_id s hnd) h
      refine ⟨h1, ?_⟩
      intro ops₀ fuel t choices heq
      cases ops₀ with
      | nil => simp at heq
      | cons o os =>
        rw [List.cons_append] at heq
        injection heq with h3 h4
        exact h2 os fuel t choices h4
    | autofill fuel t choices =>
      simp only [applySelOps] at h
      cases ha : _random_select_pokemon keys choices n fuel t s with
      | none => rw [ha] at h; cases h
      | some s' =>
        rw [ha] at h
        have hs' := random_select_nodup_len keys choices n fuel t s s' hnd ha
        obtain ⟨h1, h2⟩ := ih s' hs'.1 h
        refine ⟨h1, ?_⟩
        intro ops₀ fuel' t' choices' heq
        cases ops₀ with
        | nil =>
          simp only [List.nil_append] at heq
          injection heq with h3 h4
          subst h4
          simp only [applySelOps] at h
          cases h
          exact hs'.2
        | cons o os =>
          rw [List.cons_append] at heq
          injection heq with h3 h4
          exact h2 os fuel' t' choices' h4

/-- C9 witness: the invariant theorem on a concrete session — one user pick
into an empty list, then an auto-fill to a 2-cell grid over catalog
`[1, 2, 3]`. -/
theorem C9_witness :
    (([] : List ℕ).Nodup ∧
      applySelOps [1, 2, 3] 2 [SelOp.pick 2, SelOp.autofill 9 0 (fun _ => 0)]
        ⟨[], 0⟩ = some ⟨[2, 1], 1⟩) ∧
    ((⟨[2, 1], 1⟩ : SelState).selected.Nodup ∧
      (⟨[2, 1], 1⟩ : SelState).selected.length ≤ 2) :=
  ⟨⟨by decide, by decide⟩,
    (C9_selection_invariant [1, 2, 3] 2 [SelOp.pick 2, SelOp.autofill 9 0 (fun _ => 0)]
        ⟨[], 0⟩ ⟨[2, 1], 1⟩ (by decide) (by decide)).1,
    (C9_selection_invariant [1, 2, 3] 2 [SelOp.pick 2, SelOp.autofill 9 0 (fun _ => 0)]
        ⟨[], 0⟩ ⟨[2, 1], 1⟩ (by decide) (by decide)).2 [SelOp.pick 2] 9 0 (fun _ => 0) rfl⟩

/-! ### Frame effect of `generate_pokemon_coloring_page` on its list
arguments (`utils.py` lines 335-337 and 350-382)

Python lists are mutable heap objects, so aliasing is modelled by a store:
cell `i` of a `List (List ℕ)` holds the list object referenced by id `i`.
`include_list.copy()` / `exclude_list.copy()` (lines 336-337) allocate two
fresh cells initialised with the callers' contents; every subsequent
mutation — `include_list.remove(...)` on lines 373 and 378,
`exclude_list.append(...)` on line 381 — is a write to those fresh cells
(the function rebinds its parameter names to the copies first), captured
below by their net effect after the cell loop. -/

theorem getD_append_left {α : Type} (d : α) :
    ∀ (l l' : List α) (i : ℕ), i < l.length → (l ++ l').getD i d = l.getD i d
  | [], _, i, h => absurd h (by simp)
  | a :: t, l', 0, _ => rfl
  | a :: t, l', i + 1, h => by
    rw [List.cons_append, List.getD_cons_succ, List.getD_cons_succ]
    exact getD_append_left d t l' i (by simpa using h)

theorem getD_set_ne {α : Type} (d v : α) :
    ∀ (l : List α) (i j : ℕ), i ≠ j → (l.set j v).getD i d = l.getD i d
  | [], _, _, _ => rfl
  | a :: t, i, 0, hne => by
    cases i with
    | zero => exact absurd rfl hne
    | succ i => rw [List.set_cons_zero, List.getD_cons_succ, List.getD_cons_succ]
  | a :: t, i, j + 1, hne => by
    cases i with
    | zero => rw [List.set_cons_succ, List.getD_cons_zero, List.getD_cons_zero]
    | succ i =>
      rw [List.set_cons_succ, List.getD_cons_succ, List.getD_cons_succ]
      exact getD_set_ne d v t i j (fun hij => hne (by rw [hij]))

/-- C10: a `generate_pokemon_coloring_page` call leaves the caller's
`include_list` and `exclude_list` objects exactly as they were — the
function works on private copies, so after the call the cells the caller
passed hold their original contents. -/
theorem C10_caller_lists_unchanged (src : ℕ → Option PImage)
    (bboxOf : ℕ → Option BBox) (choices : ℕ → ℕ) (keys : List ℕ) (fuel : ℕ)
    (page_height_mm page_width_mm outer_margin_mm inner_margin_mm font_size_mm : ℚ)
    (dpi : ℤ) (rows columns : ℕ) (color crop : Bool)
    (store : List (List ℕ)) (rInc rExc : ℕ)
    (hInc : rInc < store.length) (hExc : rExc < store.length) :
    (generateStoreEffect src bboxOf choices keys fuel page_height_mm page_width_mm
        outer_margin_mm inner_margin_mm font_size_mm dpi rows columns color crop
        store rInc rExc).getD rInc [] = store.getD rInc [] ∧
    (generateStoreEffect src bboxOf choices keys fuel page_height_mm page_width_mm
        outer_margin_mm inner_margin_mm font_size_mm dpi rows columns color crop
        store rInc rExc).getD rExc [] = store.getD rExc [] := by
  unfold generateStoreEffect
  dsimp only
  constructor
  · split
    · exact getD_append_left [] store _ rInc hInc
    · rw [getD_set_ne [] _ _ rInc (store.length + 1) (by omega),
        getD_set_ne [] _ _ rInc store.length (by omega)]
      exact getD_append_left [] store _ rInc hInc
  · split
    · exact getD_append_left [] store _ rExc hExc
    · rw [getD_set_ne [] _ _ rExc (store.length + 1) (by omega),
        getD_set_ne [] _ _ rExc store.length (by omega)]
      exact getD_append_left [] store _ rExc hExc

/-- C10 witness: the frame theorem on a concrete two-object store — the
caller's include list `[25]` and exclude list `[7]` are intact after a
1×1 render. -/
theorem C10_witness :
    ((0 : ℕ) < 2 ∧ (1 : ℕ) < 2) ∧
    ((generateStoreEffect (fun _ => some ⟨100, 100, PMode.RGBA⟩) (fun _ => none)
        (fun _ => 0) [25] 5 210 297 10 2 (5/2) 200 1 1 false true
        [[25], [7]] 0 1).getD 0 [] = [[25], [7]].getD 0 [] ∧
     (generateStoreEffect (fun _ => some ⟨100, 100, PMode.RGBA⟩) (fun _ => none)
        (fun _ => 0) [25] 5 210 297 10 2 (5/2) 200 1 1 false true
        [[25], [7]] 0 1).getD 1 [] = [[25], [7]].getD 1 []) :=
  ⟨⟨by decide, by decide⟩,
    C10_caller_lists_unchanged (fun _ => some ⟨100, 100, PMode.RGBA⟩) (fun _ => none)
      (fun _ => 0) [25] 5 210 297 10 2 (5/2) 200 1 1 false true
      [[25], [7]] 0 1 (by decide) (by decide)⟩
